import Mathlib

/-!
Verification development for the BCFS blockchain filesystem layer and its
memchain collaborator.

The memchain side (`PTx`, `PTx.emit`, `PTx.account_meta_at`, the state setup
performed by `transact`) is translated directly from
`memchain/src/pending_transaction.rs`.  The BCFS filesystem itself is not part
of the available sources (only its test suite is), so its operations are
modelled from the specification document, as indicated on each definition.
-/

namespace Mantle

/-- Bytes are modelled as natural numbers; all byte values produced by the
encoders below are `< 256` by construction (`% 256`). -/
abbrev Byte := Nat

/-- Addresses are modelled by their directory-name string (the hex encoding of
the 20-byte address used as a home-directory name). -/
abbrev Address := String

/-- Association-list lookup (first match wins), used for descriptor tables,
node tables, account maps and per-account key/value storage. -/
def alookup {α β : Type} [DecidableEq α] : List (α × β) → α → Option β
  | [], _ => none
  | (k, v) :: rest, k' => if k = k' then some v else alookup rest k'

/-- Association-list update: replaces the first binding of the key, or appends
a new binding if the key is absent. -/
def aset {α β : Type} [DecidableEq α] : List (α × β) → α → β → List (α × β)
  | [], k, v => [(k, v)]
  | (k', v') :: rest, k, v =>
    if k' = k then (k, v) :: rest else (k', v') :: aset rest k v

/-- Association-list removal of the first binding of a key. -/
def aremove {α β : Type} [DecidableEq α] : List (α × β) → α → List (α × β)
  | [], _ => []
  | (k', v') :: rest, k => if k' = k then rest else (k', v') :: aremove rest k

/-- An account, from `memchain`: balance (u128), code bytes and the persistent
key/value storage map (keys modelled as the strings BCFS uses for them). -/
structure Account where
  balance : Nat
  code : List Byte
  storage : List (String × List Byte)
deriving DecidableEq

/-- An emitted event, from `oasis-types`: emitter address, topics (each stored
as exactly 32 bytes by `PTx.emit`) and free-form data. -/
structure Event where
  emitter : Address
  topics : List (List Byte)
  data : List Byte
deriving DecidableEq

/-- The pending-transaction state, from `memchain/src/pending_transaction.rs`:
caller/callee/value of the call, the (copied) account state, the transaction
input, the accumulated output and the events emitted so far. -/
structure PTx where
  caller : Address
  callee : Address
  value : Nat
  state : List (Address × Account)
  input : List Byte
  output : List Byte
  events : List Event
deriving DecidableEq

/-- Topic coercion performed by `PendingTransaction::emit`: a 32-byte array is
zero-initialised and the first `min (length t) 32` bytes of the topic are
copied into it, so short topics are right-padded with zeros and long topics
are truncated to their first 32 bytes. -/
def coerceTopic (t : List Byte) : List Byte :=
  t.take 32 ++ List.replicate (32 - t.length) 0

/-- `PendingTransaction::emit`, translated from the source: pushes one event
whose emitter is the callee, whose topics are the supplied topics coerced to
32 bytes each, and whose data is the supplied data. -/
def PTx.emit (ptx : PTx) (topics : List (List Byte)) (data : List Byte) : PTx :=
  { ptx with
    events := ptx.events ++ [{ emitter := ptx.callee
                               topics := topics.map coerceTopic
                               data := data }] }

/-- `PendingTransaction::account_meta_at`, translated from the source
(projected onto the balance component of `AccountMeta`). -/
def PTx.account_meta_at (ptx : PTx) (addr : Address) : Option Nat :=
  (alookup ptx.state addr).map (fun a => a.balance)

/-- `PendingTransaction::code_at`, translated from the source. -/
def PTx.code_at (ptx : PTx) (addr : Address) : Option (List Byte) :=
  (alookup ptx.state addr).map (fun a => a.code)

/-- Read a key of the callee account's persistent storage
(`PendingTransaction::state` returns the callee's key/value store). -/
def PTx.storageGet (ptx : PTx) (key : String) : Option (List Byte) :=
  (alookup ptx.state ptx.callee).bind (fun acct => alookup acct.storage key)

/-- Write a key of the callee account's persistent storage
(`PendingTransaction::state_mut`).  A missing callee account leaves the state
unchanged (the source would panic; the scenarios always supply the account). -/
def PTx.storageSet (ptx : PTx) (key : String) (v : List Byte) : PTx :=
  { ptx with
    state :=
      match alookup ptx.state ptx.callee with
      | none => ptx.state
      | some acct =>
        aset ptx.state ptx.callee { acct with storage := aset acct.storage key v } }

/-- Update the balance of one account in a state map. -/
def updateBal (st : List (Address × Account)) (addr : Address) (f : Nat → Nat) :
    List (Address × Account) :=
  match alookup st addr with
  | none => st
  | some acct => aset st addr { acct with balance := f acct.balance }

/-- The state transfer performed by `PendingTransaction::transact` before the
callee's `main` runs, translated from the source: the caller's balance is
decreased by `value` and the callee's increased by `value` on a copy of the
state, and the resulting `PendingTransaction` carries that state.  The
source's gas accounting and existence/funds checks are preconditions of the
theorems that use this. -/
def mkTransactPtx (st : List (Address × Account)) (caller callee : Address)
    (value : Nat) (input : List Byte) : PTx :=
  { caller := caller
    callee := callee
    value := value
    state := updateBal (updateBal st caller (fun b => b - value)) callee (fun b => b + value)
    input := input
    output := []
    events := [] }

/-- Little-endian byte encoding of a natural number into `k` bytes. -/
def leBytes : Nat → Nat → List Byte
  | 0, _ => []
  | k + 1, n => n % 256 :: leBytes k (n / 256)

/-- Parse a little-endian `u32` from the head of a byte stream. -/
def parseU32 : List Byte → Option (Nat × List Byte)
  | a :: b :: c :: d :: rest => some (a + 256 * b + 65536 * c + 16777216 * d, rest)
  | _ => none

/-- Parse a little-endian-length-prefixed byte string. -/
def parseLenPrefixed (bs : List Byte) : Option (List Byte × List Byte) :=
  match parseU32 bs with
  | none => none
  | some (n, rest) =>
    if n ≤ rest.length then some (rest.take n, rest.drop n) else none

/-- Parse `n` length-prefixed topics. -/
def parseTopics : Nat → List Byte → Option (List (List Byte) × List Byte)
  | 0, bs => some ([], bs)
  | n + 1, bs =>
    match parseLenPrefixed bs with
    | none => none
    | some (t, rest) =>
      match parseTopics n rest with
      | none => none
      | some (ts, r) => some (t :: ts, r)

/-- Modelled from the spec: the structured log entry decoded by a log-file
flush — a little-endian count-prefixed topic list (each topic length-prefixed)
followed by length-prefixed data, consuming the whole buffer. -/
def decodeLog (bs : List Byte) : Option (List (List Byte) × List Byte) :=
  match parseU32 bs with
  | none => none
  | some (n, rest) =>
    match parseTopics n rest with
    | none => none
    | some (ts, r) =>
      match parseLenPrefixed r with
      | none => none
      | some (d, r2) => if r2 = [] then some (ts, d) else none

/-- The wire encoding of a structured log entry (as also constructed by the
test helper `create_log`): count of topics, then each topic length-prefixed,
then the data length-prefixed; all lengths little-endian `u32`. -/
def encodeLog (topics : List (List Byte)) (data : List Byte) : List Byte :=
  leBytes 4 topics.length
    ++ (topics.map (fun t => leBytes 4 t.length ++ t)).flatten
    ++ leBytes 4 data.length ++ data

/-- Modelled from the spec: the closed set of file kinds (design note §9):
regular files identified by canonical path, the three blockchain specials,
the standard streams, anonymous tempfiles, and preopened directories
identified by their canonical path. -/
inductive FileKind : Type
  | regular (canon : List String)
  | balance
  | bytecode
  | log
  | stdin
  | stdout
  | stderr
  | temp
  | dir (canon : List String)
deriving DecidableEq

/-- Modelled from the spec: which kinds accept `write`/`pwrite` (balance and
bytecode are read-only snapshots, stdin is the input stream, directories are
not byte streams). -/
def FileKind.writable : FileKind → Bool
  | .balance | .bytecode | .stdin | .dir _ => false
  | _ => true

/-- Modelled from the spec: which kinds accept `read`/`pread` (stdout/stderr
and the log are pure write sinks, directories are not byte streams). -/
def FileKind.readable : FileKind → Bool
  | .stdout | .stderr | .log | .dir _ => false
  | _ => true

/-- Modelled from the spec: a FileNode — kind, one shared mutable content
buffer, a dirty flag, and the number of open handles referencing it (the node
is discarded when the count reaches zero). -/
structure Node where
  kind : FileKind
  content : List Byte
  dirty : Bool
  refs : Nat
deriving DecidableEq

/-- Modelled from the spec: an OpenHandle — a non-owning node reference, a
cursor offset and the append flag. -/
structure OpenHandle where
  node : Nat
  cursor : Nat
  append : Bool
deriving DecidableEq

/-- Modelled from the spec: the BCFS instance — home (callee) address,
descriptor table, node table, and fresh-id counters. -/
structure BCFS where
  home : String
  files : List (Nat × OpenHandle)
  nodes : List (Nat × Node)
  nextFd : Nat
  nextNode : Nat
deriving DecidableEq

/-- One component of a filesystem path. -/
inductive Seg : Type
  | dot
  | dotdot
  | name (s : String)
deriving DecidableEq

/-- A filesystem path as passed to `open`: an absolute flag plus the list of
components. -/
structure FsPath where
  absolute : Bool
  segs : List Seg
deriving DecidableEq

/-- The reserved descriptor of the preopened chain-root directory
(`file::CHAIN_DIR_FILENO`). -/
def CHAIN_DIR_FILENO : Nat := 3

/-- The reserved descriptor of the preopened home directory
(`file::HOME_DIR_FILENO`). -/
def HOME_DIR_FILENO : Nat := 4

/-- Modelled from the spec: `BCFS::new` — a fresh instance contains exactly
the reserved descriptors: stdin (the transaction input stream), stdout,
stderr, the chain-root directory and the caller's home directory. -/
def BCFS.new (home : String) (input : List Byte) : BCFS :=
  { home := home
    files := [(0, ⟨0, 0, false⟩), (1, ⟨1, 0, false⟩), (2, ⟨2, 0, false⟩),
              (3, ⟨3, 0, false⟩), (4, ⟨4, 0, false⟩)]
    nodes := [(0, ⟨.stdin, input, false, 1⟩), (1, ⟨.stdout, [], false, 1⟩),
              (2, ⟨.stderr, [], false, 1⟩), (3, ⟨.dir [], [], false, 1⟩),
              (4, ⟨.dir [home], [], false, 1⟩)]
    nextFd := 5
    nextNode := 5 }

/-- The error taxonomy of the external interface (wasi `ErrNo` values used by
BCFS). -/
inductive ErrNo : Type
  | badF
  | noEnt
  | exist
  | inval
  | access
deriving DecidableEq

/-- Modelled from the spec: canonicalisation of path segments starting from
`acc`, never popping past the sandbox root `root` — `.` is dropped, `..` pops
the last segment, or fails (reported as nonexistent) if it would pop past the
root. -/
def canonSegs (root : List String) : List String → List Seg → Option (List String)
  | acc, [] => some acc
  | acc, .dot :: rest => canonSegs root acc rest
  | acc, .dotdot :: rest =>
    if acc.length ≤ root.length then none else canonSegs root acc.dropLast rest
  | acc, .name s :: rest => canonSegs root (acc ++ [s]) rest

/-- Modelled from the spec: `resolve(base_fd, path)`.  The base must be an
open directory descriptor (else BadDescriptor); an empty relative path is
InvalidArgument; absolute paths resolve against the chain root and relative
paths against the base directory's canonical prefix, which is also the
applicable sandbox root; `..` escaping the root is reported as NotFound. -/
def BCFS.resolve (fs : BCFS) (base : Nat) (p : FsPath) : Except ErrNo (List String) :=
  match alookup fs.files base with
  | none => .error .badF
  | some h =>
    match alookup fs.nodes h.node with
    | none => .error .badF
    | some nd =>
      match nd.kind with
      | .dir pre =>
        if !p.absolute && p.segs = [] then .error .inval
        else
          let root := if p.absolute then [] else pre
          match canonSegs root root p.segs with
          | none => .error .noEnt
          | some c => .ok c
      | _ => .error .badF

/-- Modelled from the spec: special-path recognition — "log" under the chain
root, "balance" and "bytecode" under the caller's home; recognised before
touching persistent storage. -/
def classify (home : String) (c : List String) : Option FileKind :=
  if c = ["log"] then some .log
  else if c = [home, "balance"] then some .balance
  else if c = [home, "bytecode"] then some .bytecode
  else none

/-- The persistent-storage key of a canonical path under the home directory:
the path segments below the home, joined with "/". -/
def storageKey (rest : List String) : String :=
  String.intercalate "/" rest

/-- Find the cached node (if any) holding a given canonical regular path, so
that aliased opens share one buffer. -/
def findNodeByPath : List (Nat × Node) → List String → Option Nat
  | [], _ => none
  | (i, nd) :: rest, c =>
    if nd.kind = FileKind.regular c then some i else findNodeByPath rest c

/-- Append a fresh node, returning its id. -/
def BCFS.addNode (fs : BCFS) (nd : Node) : Nat × BCFS :=
  (fs.nextNode, { fs with nodes := fs.nodes ++ [(fs.nextNode, nd)]
                          nextNode := fs.nextNode + 1 })

/-- Append a fresh handle on a node, returning its descriptor. -/
def BCFS.addHandle (fs : BCFS) (nid : Nat) (append : Bool) : Nat × BCFS :=
  (fs.nextFd, { fs with files := fs.files ++ [(fs.nextFd, ⟨nid, 0, append⟩)]
                        nextFd := fs.nextFd + 1 })

/-- Modelled from the spec: `open(base_fd, path, open_flags, fd_flags)`.
Specials already exist (Create/Excl fail with AlreadyExists) and cannot be
truncated (InvalidArgument); the log must be opened with append semantics;
balance and bytecode content is snapshotted from the collaborator at open
time.  Regular paths must lie under the caller's home; an open on a path
whose node is already cached aliases that node (sharing its buffer);
otherwise content is loaded from persistent storage, Excl on an existing file
fails with AlreadyExists, a missing file without Create fails with NotFound,
and Trunc discards existing content. -/
def BCFS.openFile (fs : BCFS) (ptx : PTx) (base : Nat) (p : FsPath)
    (create excl trunc append : Bool) : Except ErrNo (Nat × BCFS) :=
  match fs.resolve base p with
  | .error e => .error e
  | .ok c =>
    match classify fs.home c with
    | some k =>
      if create || excl then .error .exist
      else if trunc then .error .inval
      else if k = .log && !append then .error .inval
      else
        let content :=
          match k with
          | .balance => leBytes 16 ((ptx.account_meta_at ptx.callee).getD 0)
          | .bytecode => (ptx.code_at ptx.callee).getD []
          | _ => []
        let (nid, fs) := fs.addNode ⟨k, content, false, 1⟩
        .ok (fs.addHandle nid append)
    | none =>
      match c with
      | home' :: rest =>
        if home' = fs.home ∧ rest ≠ [] then
          match findNodeByPath fs.nodes c with
          | some nid =>
            if excl then .error .exist
            else
              match alookup fs.nodes nid with
              | none => .error .badF
              | some nd =>
                let nd' := if trunc then { nd with content := [], dirty := true } else nd
                let fs :=
                  { fs with nodes := aset fs.nodes nid { nd' with refs := nd'.refs + 1 } }
                .ok (fs.addHandle nid append)
          | none =>
            match ptx.storageGet (storageKey rest) with
            | some v =>
              if excl then .error .exist
              else
                let (nid, fs) :=
                  fs.addNode ⟨.regular c, if trunc then [] else v, trunc, 1⟩
                .ok (fs.addHandle nid append)
            | none =>
              if create then
                let (nid, fs) := fs.addNode ⟨.regular c, [], true, 1⟩
                .ok (fs.addHandle nid append)
              else .error .noEnt
        else .error .noEnt
      | [] => .error .noEnt

/-- Modelled from the spec: `tempfile` — allocates an anonymous node with no
canonical path. -/
def BCFS.tempfile (fs : BCFS) : Nat × BCFS :=
  let (nid, fs) := fs.addNode ⟨.temp, [], false, 1⟩
  fs.addHandle nid false

/-- Write `data` into `content` at offset `off`, zero-filling any gap between
the end of content and the offset. -/
def writeAt (content : List Byte) (off : Nat) (data : List Byte) : List Byte :=
  let padded := content ++ List.replicate (off - content.length) 0
  padded.take off ++ data ++ padded.drop (off + data.length)

/-- Read up to `n` bytes of `content` starting at offset `off`. -/
def readAt (content : List Byte) (off n : Nat) : List Byte :=
  (content.drop off).take n

/-- Modelled from the spec: vectored `write` at the current cursor (modelled
on the concatenation of the io-slices).  Append-mode handles force the target
offset to the current end of content; the cursor advances past the written
bytes; the node is marked dirty.  Unwritable kinds fail with
InvalidArgument. -/
def BCFS.write_vectored (fs : BCFS) (_ptx : PTx) (fd : Nat) (data : List Byte) :
    Except ErrNo (Nat × BCFS) :=
  match alookup fs.files fd with
  | none => .error .badF
  | some h =>
    match alookup fs.nodes h.node with
    | none => .error .badF
    | some nd =>
      if nd.kind.writable then
        let off := if h.append then nd.content.length else h.cursor
        let nd' := { nd with content := writeAt nd.content off data, dirty := true }
        let h' := { h with cursor := off + data.length }
        .ok (data.length,
          { fs with nodes := aset fs.nodes h.node nd', files := aset fs.files fd h' })
      else .error .inval

/-- Modelled from the spec: positional `pwrite` at an explicit offset; the
cursor is not affected. -/
def BCFS.pwrite_vectored (fs : BCFS) (_ptx : PTx) (fd : Nat) (data : List Byte) (off : Nat) :
    Except ErrNo (Nat × BCFS) :=
  match alookup fs.files fd with
  | none => .error .badF
  | some h =>
    match alookup fs.nodes h.node with
    | none => .error .badF
    | some nd =>
      if nd.kind.writable then
        let nd' := { nd with content := writeAt nd.content off data, dirty := true }
        .ok (data.length, { fs with nodes := aset fs.nodes h.node nd' })
      else .error .inval

/-- Modelled from the spec: vectored `read` at the current cursor of up to `n`
bytes (the total capacity of the io-slices); returns the bytes actually
available and advances the cursor past them.  Unreadable kinds fail with
InvalidArgument. -/
def BCFS.read_vectored (fs : BCFS) (_ptx : PTx) (fd : Nat) (n : Nat) :
    Except ErrNo (List Byte × BCFS) :=
  match alookup fs.files fd with
  | none => .error .badF
  | some h =>
    match alookup fs.nodes h.node with
    | none => .error .badF
    | some nd =>
      if nd.kind.readable then
        let bytes := readAt nd.content h.cursor n
        let h' := { h with cursor := h.cursor + bytes.length }
        .ok (bytes, { fs with files := aset fs.files fd h' })
      else .error .inval

/-- Modelled from the spec: positional `pread` at an explicit offset; the
cursor (and all other state) is not affected, so the instance is returned
unchanged. -/
def BCFS.pread_vectored (fs : BCFS) (_ptx : PTx) (fd : Nat) (n : Nat) (off : Nat) :
    Except ErrNo (List Byte × BCFS) :=
  match alookup fs.files fd with
  | none => .error .badF
  | some h =>
    match alookup fs.nodes h.node with
    | none => .error .badF
    | some nd =>
      if nd.kind.readable then .ok (readAt nd.content off n, fs)
      else .error .inval

/-- Seek origins of the external interface (`Whence`): Start, Current, End. -/
inductive Whence : Type
  | start
  | current
  | fromEnd
deriving DecidableEq

/-- Modelled from the spec: `seek(offset, whence)` — Start is absolute from
zero, Current adds to the cursor, End adds to the content length; a negative
result is InvalidArgument; seeking past end-of-content is permitted. -/
def BCFS.seek (fs : BCFS) (_ptx : PTx) (fd : Nat) (offset : Int) (w : Whence) :
    Except ErrNo (Nat × BCFS) :=
  match alookup fs.files fd with
  | none => .error .badF
  | some h =>
    match alookup fs.nodes h.node with
    | none => .error .badF
    | some nd =>
      match nd.kind with
      | .dir _ => .error .inval
      | _ =>
        let base : Int :=
          match w with
          | .start => 0
          | .current => h.cursor
          | .fromEnd => nd.content.length
        let pos := base + offset
        if pos < 0 then .error .inval
        else
          .ok (pos.toNat, { fs with files := aset fs.files fd { h with cursor := pos.toNat } })

/-- Modelled from the spec: `tell` — the handle's current cursor. -/
def BCFS.tell (fs : BCFS) (_ptx : PTx) (fd : Nat) : Except ErrNo Nat :=
  match alookup fs.files fd with
  | none => .error .badF
  | some h => .ok h.cursor

/-- Modelled from the spec: `flush` — a dirty regular node's content is
committed to the collaborator's persistent storage under its canonical-path
key; a tempfile flush is a no-op with respect to persistent storage; a log
flush packages the bytes buffered since the previous flush (if any) into one
structured entry and emits it as one event; stdout/stderr flushes copy the
buffered bytes into the transaction output; the other kinds have nothing to
flush. -/
def BCFS.flush (fs : BCFS) (ptx : PTx) (fd : Nat) : Except ErrNo (BCFS × PTx) :=
  match alookup fs.files fd with
  | none => .error .badF
  | some h =>
    match alookup fs.nodes h.node with
    | none => .error .badF
    | some nd =>
      match nd.kind with
      | .regular c =>
        if nd.dirty then
          .ok ({ fs with nodes := aset fs.nodes h.node { nd with dirty := false } },
               ptx.storageSet (storageKey c.tail) nd.content)
        else .ok (fs, ptx)
      | .log =>
        if nd.content = [] then .ok (fs, ptx)
        else
          match decodeLog nd.content with
          | none => .error .inval
          | some (ts, d) =>
            .ok ({ fs with nodes := aset fs.nodes h.node { nd with content := [] } },
                 ptx.emit ts d)
      | .stdout | .stderr =>
        .ok ({ fs with nodes := aset fs.nodes h.node { nd with content := [] } },
             { ptx with output := ptx.output ++ nd.content })
      | _ => .ok (fs, ptx)

/-- Remove a handle from the table and drop its node reference, discarding the
node when its last handle is gone. -/
def BCFS.removeHandle (fs : BCFS) (fd : Nat) (nid : Nat) : BCFS :=
  let fs := { fs with files := aremove fs.files fd }
  match alookup fs.nodes nid with
  | none => fs
  | some nd =>
    if nd.refs ≤ 1 then { fs with nodes := aremove fs.nodes nid }
    else { fs with nodes := aset fs.nodes nid { nd with refs := nd.refs - 1 } }

/-- Modelled from the spec: `close` — an unknown descriptor fails with
BadDescriptor; otherwise the handle is flushed first and then removed from
the table even if the flush failed, with the flush error (if any) surfaced as
the close result. -/
def BCFS.close (fs : BCFS) (ptx : PTx) (fd : Nat) : Option ErrNo × BCFS × PTx :=
  match alookup fs.files fd with
  | none => (some .badF, fs, ptx)
  | some h =>
    match fs.flush ptx fd with
    | .error e => (some e, fs.removeHandle fd h.node, ptx)
    | .ok (fs', ptx') => (none, fs'.removeHandle fd h.node, ptx')

/-! ### Scenario pipelines

Each scenario chains the modelled operations exactly as the corresponding
test or claim describes, threading the filesystem and transaction states and
propagating the first error. -/

/-- A relative path made of plain name segments. -/
def relPath (names : List String) : FsPath :=
  ⟨false, names.map Seg.name⟩

/-- Claim C1 pipeline: open a path through two spellings (each via its own
base descriptor), write through the first handle, and positionally read the
written bytes back through the second handle, with no flush in between. -/
def aliasScenario (ptx : PTx) (b1 : Nat) (p1 : FsPath) (b2 : Nat) (p2 : FsPath)
    (data : List Byte) : Except ErrNo (List Byte) :=
  let fs0 := BCFS.new ptx.callee ptx.input
  match fs0.openFile ptx b1 p1 true false false false with
  | .error e => .error e
  | .ok (fd1, fs1) =>
    match fs1.openFile ptx b2 p2 false false false false with
    | .error e => .error e
    | .ok (fd2, fs2) =>
      match fs2.write_vectored ptx fd1 data with
      | .error e => .error e
      | .ok (_, fs3) =>
        match fs3.pread_vectored ptx fd2 data.length 0 with
        | .error e => .error e
        | .ok (bytes, _) => .ok bytes

/-- Claim C2 pipeline: open the log (append mode) from the chain directory,
write a payload through it, flush, and return the transaction's events. -/
def logScenario (ptx : PTx) (payload : List Byte) : Except ErrNo (List Event) :=
  let fs0 := BCFS.new ptx.callee ptx.input
  match fs0.openFile ptx CHAIN_DIR_FILENO ⟨false, [.name "log"]⟩ false false false true with
  | .error e => .error e
  | .ok (fd, fs1) =>
    match fs1.write_vectored ptx fd payload with
    | .error e => .error e
    | .ok (_, fs2) =>
      match fs2.flush ptx fd with
      | .error e => .error e
      | .ok (_, ptx') => .ok ptx'.events

/-- Claim C3 pipeline: open a home file with Create and append semantics,
write once, close; do the same again with a second payload; return the
persistent storage content of the file. -/
def twoAppendScenario (ptx : PTx) (s : String) (w1 w2 : List Byte) :
    Except ErrNo (Option (List Byte)) :=
  let fs0 := BCFS.new ptx.callee ptx.input
  match fs0.openFile ptx HOME_DIR_FILENO (relPath [s]) true false false true with
  | .error e => .error e
  | .ok (fd1, fs1) =>
    match fs1.write_vectored ptx fd1 w1 with
    | .error e => .error e
    | .ok (_, fs2) =>
      match fs2.close ptx fd1 with
      | (some e, _, _) => .error e
      | (none, fs3, ptx3) =>
        match fs3.openFile ptx3 HOME_DIR_FILENO (relPath [s]) true false false true with
        | .error e => .error e
        | .ok (fd2, fs4) =>
          match fs4.write_vectored ptx3 fd2 w2 with
          | .error e => .error e
          | .ok (_, fs5) =>
            match fs5.close ptx3 fd2 with
            | (some e, _, _) => .error e
            | (none, _, ptx4) => .ok (ptx4.storageGet (storageKey [s]))

/-- Claim C4 pipeline: close a descriptor twice, returning both results. -/
def closeTwice (fs : BCFS) (ptx : PTx) (fd : Nat) : Option ErrNo × Option ErrNo :=
  let r1 := fs.close ptx fd
  (r1.1, (r1.2.1.close r1.2.2 fd).1)

/-- Claim C6 pipeline: open with Create, write the payload, close (flushing),
reopen the same path without Truncate, and read the payload's length back. -/
def roundTripScenario (ptx : PTx) (names : List String) (data : List Byte) :
    Except ErrNo (List Byte) :=
  let fs0 := BCFS.new ptx.callee ptx.input
  match fs0.openFile ptx HOME_DIR_FILENO (relPath names) true false false false with
  | .error e => .error e
  | .ok (fd1, fs1) =>
    match fs1.write_vectored ptx fd1 data with
    | .error e => .error e
    | .ok (_, fs2) =>
      match fs2.close ptx fd1 with
      | (some e, _, _) => .error e
      | (none, fs3, ptx3) =>
        match fs3.openFile ptx3 HOME_DIR_FILENO (relPath names) false false false false with
        | .error e => .error e
        | .ok (fd2, fs4) =>
          match fs4.read_vectored ptx3 fd2 data.length with
          | .error e => .error e
          | .ok (bytes, _) => .ok bytes

/-- Claim C7 pipeline: open the "balance" special from the home directory
under one transaction state, then read it while a possibly different
transaction state is current. -/
def balanceScenario (ptxOpen ptxLater : PTx) : Except ErrNo (List Byte) :=
  let fs0 := BCFS.new ptxOpen.callee ptxOpen.input
  match fs0.openFile ptxOpen HOME_DIR_FILENO (relPath ["balance"]) false false false false with
  | .error e => .error e
  | .ok (fd, fs1) =>
    match fs1.read_vectored ptxLater fd 32 with
    | .error e => .error e
    | .ok (bytes, _) => .ok bytes

/-- Perform a sequence of cursor writes through one descriptor. -/
def writeAll (ptx : PTx) (fd : Nat) : List (List Byte) → BCFS → Except ErrNo BCFS
  | [], fs => .ok fs
  | w :: ws, fs =>
    match fs.write_vectored ptx fd w with
    | .error e => .error e
    | .ok (_, fs') => writeAll ptx fd ws fs'

/-- Claim C9 pipeline: allocate a tempfile, perform a sequence of writes
through it, seek back to the start, read everything written, flush the
handle, and return the bytes read together with the final transaction
state. -/
def tempfileScenario (ptx : PTx) (writes : List (List Byte)) :
    Except ErrNo (List Byte × PTx) :=
  let fs0 := BCFS.new ptx.callee ptx.input
  let (fd, fs1) := fs0.tempfile
  match writeAll ptx fd writes fs1 with
  | .error e => .error e
  | .ok fs2 =>
    match fs2.seek ptx fd 0 .start with
    | .error e => .error e
    | .ok (_, fs3) =>
      match fs3.read_vectored ptx fd writes.flatten.length with
      | .error e => .error e
      | .ok (bytes, fs4) =>
        match fs4.flush ptx fd with
        | .error e => .error e
        | .ok (_, ptx') => .ok (bytes, ptx')

/-- Decidable equality for `Except`, so concrete scenario runs can be settled
by `decide`. -/
instance {ε α : Type} [DecidableEq ε] [DecidableEq α] : DecidableEq (Except ε α) := fun a b =>
  match a, b with
  | .error x, .error y =>
    if h : x = y then isTrue (congrArg Except.error h)
    else isFalse (fun he => h (Except.error.inj he))
  | .ok x, .ok y =>
    if h : x = y then isTrue (congrArg Except.ok h)
    else isFalse (fun he => h (Except.ok.inj he))
  | .error _, .ok _ => isFalse (fun he => Except.noConfusion he)
  | .ok _, .error _ => isFalse (fun he => Except.noConfusion he)

/-! ### Concrete fixtures used by the witnesses and the counterexample -/

/-- A concrete account for the callee, mirroring the genesis account the test
suite builds (balance `giga 2 + 42` after the value transfer, some code
bytes, a small storage map). -/
def exAcct : Account :=
  { balance := 2000000042, code := [5, 6, 7], storage := [("k", [1])] }

/-- A concrete two-account chain state. -/
def exState : List (Address × Account) :=
  [("a1", { balance := 1000, code := [9], storage := [] }), ("a2", exAcct)]

/-- A concrete pending transaction from account "a1" to account "a2". -/
def exPtx : PTx :=
  { caller := "a1", callee := "a2", value := 42, state := exState,
    input := [1, 2], output := [], events := [] }

/-- The bytes of the topic "hello" used by the test suite's `create_log`. -/
def helloBytes : List Byte := [104, 101, 108, 108, 111]

/-- The bytes of the topic "world" used by the test suite's `create_log`. -/
def worldBytes : List Byte := [119, 111, 114, 108, 100]

/-- A small hand-built filesystem state with one regular open file whose
cursor sits at offset 3, used to witness the cursor-preservation claim. -/
def exFs : BCFS :=
  { home := "a2"
    files := [(5, ⟨5, 3, false⟩)]
    nodes := [(5, ⟨.regular ["a2", "f"], [1, 2, 3], false, 1⟩)]
    nextFd := 6
    nextNode := 6 }

/-- A hand-built filesystem with one append-mode handle whose cursor sits at
offset 0 while the content already has two bytes, witnessing that the write
still lands at the end. -/
def exFsAppend : BCFS :=
  { home := "a2"
    files := [(5, ⟨5, 0, true⟩)]
    nodes := [(5, ⟨.regular ["a2", "g"], [1, 2], false, 1⟩)]
    nextFd := 6
    nextNode := 6 }

/-! ### Supporting lemmas -/

theorem alookup_aset_self {α β : Type} [DecidableEq α]
    (m : List (α × β)) (k : α) (v : β) : alookup (aset m k v) k = some v := by
  induction m with
  | nil => simp [aset, alookup]
  | cons hd tl ih =>
    obtain ⟨k', v'⟩ := hd
    by_cases h : k' = k <;> simp [aset, alookup, h, ih]

theorem alookup_aset_ne {α β : Type} [DecidableEq α]
    (m : List (α × β)) (k k' : α) (v : β) (h : k ≠ k') :
    alookup (aset m k v) k' = alookup m k' := by
  induction m with
  | nil => simp [aset, alookup, h]
  | cons hd tl ih =>
    obtain ⟨k'', v''⟩ := hd
    by_cases h2 : k'' = k
    · subst h2
      simp [aset, alookup, h]
    · simp [aset, alookup, h2, ih]

theorem alookup_append {α β : Type} [DecidableEq α]
    (l l2 : List (α × β)) (k : α) (v : β) (h : alookup l k = some v) :
    alookup (l ++ l2) k = some v := by
  induction l with
  | nil => simp [alookup] at h
  | cons hd tl ih =>
    obtain ⟨k', v'⟩ := hd
    by_cases hk : k' = k
    · simpa [alookup, hk] using h
    · simp [alookup, hk] at h ⊢
      exact ih h

theorem aset_self {α β : Type} [DecidableEq α]
    (m : List (α × β)) (k : α) (v : β) (h : alookup m k = some v) :
    aset m k v = m := by
  induction m with
  | nil => simp [alookup] at h
  | cons hd tl ih =>
    obtain ⟨k', v'⟩ := hd
    by_cases hk : k' = k
    · simp [alookup, hk] at h
      simp [aset, hk, h]
    · simp [alookup, hk] at h
      simp [aset, hk, ih h]

theorem aset_aset {α β : Type} [DecidableEq α]
    (m : List (α × β)) (k : α) (v w : β) :
    aset (aset m k v) k w = aset m k w := by
  induction m with
  | nil => simp [aset]
  | cons hd tl ih =>
    obtain ⟨k', v'⟩ := hd
    by_cases hk : k' = k <;> simp [aset, hk, ih]

theorem leBytes_length (k : Nat) : ∀ n : Nat, (leBytes k n).length = k := by
  induction k with
  | zero => intro n; simp [leBytes]
  | succ k ih => intro n; simp [leBytes, ih]

theorem parseU32_leBytes (n : Nat) (hn : n < 2 ^ 32) (rest : List Byte) :
    parseU32 (leBytes 4 n ++ rest) = some (n, rest) := by
  simp only [leBytes, List.cons_append, List.nil_append, parseU32]
  congr 1
  congr 1
  omega

theorem parseLenPrefixed_encoded (t rest : List Byte) (ht : t.length < 2 ^ 32) :
    parseLenPrefixed (leBytes 4 t.length ++ (t ++ rest)) = some (t, rest) := by
  simp only [parseLenPrefixed, parseU32_leBytes t.length ht (t ++ rest)]
  rw [if_pos (by simp)]
  simp

theorem parseTopics_encoded (topics : List (List Byte)) (rest : List Byte)
    (ht : ∀ t ∈ topics, t.length < 2 ^ 32) :
    parseTopics topics.length
      ((topics.map (fun t => leBytes 4 t.length ++ t)).flatten ++ rest) =
      some (topics, rest) := by
  induction topics with
  | nil => simp [parseTopics]
  | cons t ts ih =>
    have ht0 : t.length < 2 ^ 32 := ht t (by simp)
    simp only [List.map_cons, List.flatten_cons, List.length_cons, parseTopics,
      List.append_assoc]
    simp only [parseLenPrefixed_encoded t _ ht0]
    simp only [ih (fun x hx => ht x (by simp [hx]))]

theorem decodeLog_encodeLog (topics : List (List Byte)) (data : List Byte)
    (hcount : topics.length < 2 ^ 32)
    (ht : ∀ t ∈ topics, t.length < 2 ^ 32)
    (hd : data.length < 2 ^ 32) :
    decodeLog (encodeLog topics data) = some (topics, data) := by
  have hlp : parseLenPrefixed (leBytes 4 data.length ++ data) = some (data, []) := by
    have h := parseLenPrefixed_encoded data [] hd
    simpa using h
  simp only [decodeLog, encodeLog, List.append_assoc]
  simp only [parseU32_leBytes topics.length hcount]
  simp only [parseTopics_encoded topics _ ht]
  simp only [hlp]
  simp

/-- A resolution that succeeded keeps succeeding with the same result after
the descriptor and node tables are extended on the right (as `open` does when
it allocates fresh entries). -/
theorem resolve_extend (fs : BCFS) (lf : List (Nat × OpenHandle))
    (ln : List (Nat × Node)) (nf nn : Nat) (b : Nat) (p : FsPath)
    (c : List String) (h : fs.resolve b p = .ok c) :
    BCFS.resolve
      { fs with files := fs.files ++ lf, nodes := fs.nodes ++ ln,
                nextFd := nf, nextNode := nn } b p = .ok c := by
  simp only [BCFS.resolve] at h ⊢
  cases hb : alookup fs.files b with
  | none => simp [hb] at h
  | some hh =>
    simp only [hb] at h
    simp only [alookup_append fs.files lf b hh hb]
    cases hn : alookup fs.nodes hh.node with
    | none => simp [hn] at h
    | some nd =>
      simp only [hn] at h
      simp only [alookup_append fs.nodes ln hh.node nd hn]
      exact h

/-- Canonicalising a path of plain name segments appends them to the starting
directory. -/
theorem canonSegs_names (root : List String) (names : List String) :
    ∀ acc : List String,
      canonSegs root acc (names.map Seg.name) = some (acc ++ names) := by
  induction names with
  | nil => intro acc; simp [canonSegs]
  | cons n ns ih =>
    intro acc
    simp only [List.map_cons, canonSegs, ih (acc ++ [n]), List.append_assoc,
      List.singleton_append]

/-- Writing at offset zero overlays the data onto the front of the content. -/
theorem writeAt_zero (content data : List Byte) :
    writeAt content 0 data = data ++ content.drop data.length := by
  simp [writeAt]

/-- Writing at the end of content appends the data. -/
theorem writeAt_end (content data : List Byte) :
    writeAt content content.length data = content ++ data := by
  simp [writeAt, List.drop_eq_nil_of_le]

/-- Running a sequence of cursor writes through a handle whose cursor sits at
end-of-content appends the concatenation of the payloads to the shared
buffer, leaving the cursor at the new end. -/
theorem writeAll_shared (ptx : PTx) (ws : List (List Byte)) :
    ∀ (fs : BCFS) (fd nid : Nat) (nd : Node),
      alookup fs.files fd = some ⟨nid, nd.content.length, false⟩ →
      alookup fs.nodes nid = some nd →
      nd.kind.writable = true →
      ∃ d : Bool, writeAll ptx fd ws fs =
        .ok { fs with
              nodes := aset fs.nodes nid { nd with content := nd.content ++ ws.flatten, dirty := d }
              files := aset fs.files fd ⟨nid, (nd.content ++ ws.flatten).length, false⟩ } := by
  induction ws with
  | nil =>
    intro fs fd nid nd hf hn hw
    refine ⟨nd.dirty, ?_⟩
    have hnd : ({ nd with content := nd.content ++ List.flatten [], dirty := nd.dirty } : Node) = nd := by
      simp
    have hh : (⟨nid, (nd.content ++ List.flatten []).length, false⟩ : OpenHandle) =
        ⟨nid, nd.content.length, false⟩ := by
      simp
    rw [writeAll, hnd, hh, aset_self _ _ _ hn, aset_self _ _ _ hf]
  | cons w ws ih =>
    intro fs fd nid nd hf hn hw
    rw [writeAll]
    simp only [BCFS.write_vectored, hf, hn, hw, if_true]
    simp only [Bool.false_eq_true, if_false, writeAt_end]
    have hf1 : alookup (aset fs.files fd ⟨nid, nd.content.length + w.length, false⟩) fd =
        some ⟨nid, ({ nd with content := nd.content ++ w, dirty := true } : Node).content.length, false⟩ := by
      rw [alookup_aset_self]
      simp
    have hn1 : alookup (aset fs.nodes nid { nd with content := nd.content ++ w, dirty := true }) nid =
        some { nd with content := nd.content ++ w, dirty := true } :=
      alookup_aset_self _ _ _
    obtain ⟨d, hd⟩ := ih ({ fs with nodes := aset fs.nodes nid { nd with content := nd.content ++ w, dirty := true }, files := aset fs.files fd ⟨nid, nd.content.length + w.length, false⟩ } : BCFS) fd nid { nd with content := nd.content ++ w, dirty := true } hf1 hn1 hw
    refine ⟨d, ?_⟩
    rw [hd]
    simp [aset_aset, List.append_assoc]

/-! ### Claim theorems -/

/-- Claim C10: each topic passed to `emit` is coerced to exactly 32 bytes
before being stored in the event — shorter topics are zero-padded on the
right and longer topics are truncated to their first 32 bytes — so the
emitted event's topics may differ from the byte strings written into the log
stream. -/
theorem emit_topics_coerced (ptx : PTx) (topics : List (List Byte)) (data : List Byte) :
    (ptx.emit topics data).events =
      ptx.events ++
        [{ emitter := ptx.callee, topics := topics.map coerceTopic, data := data }] ∧
    ∀ t : List Byte,
      (coerceTopic t).length = 32 ∧
      (t.length ≤ 32 → coerceTopic t = t ++ List.replicate (32 - t.length) 0) ∧
      (32 ≤ t.length → coerceTopic t = t.take 32) := by
  refine ⟨rfl, fun t => ⟨?_, ?_, ?_⟩⟩
  · simp [coerceTopic]
    omega
  · intro hle
    simp [coerceTopic, List.take_of_length_le hle]
  · intro hge
    simp [coerceTopic, Nat.sub_eq_zero_of_le hge]

theorem emit_topics_coerced_witness :
    (PTx.emit exPtx [[7]] [1]).events =
      exPtx.events ++ [{ emitter := exPtx.callee, topics := [[7]].map coerceTopic, data := [1] }] ∧
    coerceTopic [7] = [7] ++ List.replicate 31 0 ∧
    coerceTopic (List.replicate 40 9) = (List.replicate 40 9).take 32 := by
  have h := emit_topics_coerced exPtx [[7]] [1]
  exact ⟨h.1, (h.2 [7]).2.1 (by decide), (h.2 (List.replicate 40 9)).2.2 (by simp)⟩

/-- Claim C8: a positional write at an explicit offset succeeds on a writable
node and leaves the handle table — and hence the cursor reported by `tell` —
unchanged; a positional read returns the filesystem state entirely
unchanged. -/
theorem pwrite_preserves_cursor (fs : BCFS) (ptx ptx2 ptx3 : PTx) (fd : Nat)
    (data : List Byte) (off : Nat) (n off2 : Nat) (h : OpenHandle) (nd : Node)
    (hf : alookup fs.files fd = some h)
    (hn : alookup fs.nodes h.node = some nd)
    (hw : nd.kind.writable = true) :
    (∃ fs' : BCFS,
      fs.pwrite_vectored ptx fd data off = .ok (data.length, fs') ∧
      fs'.files = fs.files ∧
      fs'.tell ptx2 fd = .ok h.cursor ∧ fs.tell ptx3 fd = .ok h.cursor) ∧
    (nd.kind.readable = true →
      fs.pread_vectored ptx fd n off2 = .ok (readAt nd.content off2 n, fs)) := by
  constructor
  · refine ⟨({ fs with nodes := aset fs.nodes h.node { nd with content := writeAt nd.content off data, dirty := true } } : BCFS), ?_, rfl, ?_, ?_⟩
    · simp only [BCFS.pwrite_vectored, hf, hn, hw, if_true]
    · simp only [BCFS.tell, hf]
    · simp only [BCFS.tell, hf]
  · intro hr
    simp only [BCFS.pread_vectored, hf, hn, hr, if_true]

theorem pwrite_preserves_cursor_witness :
    (∃ fs' : BCFS,
      exFs.pwrite_vectored exPtx 5 [9, 9] 0 = .ok (2, fs') ∧
      fs'.files = exFs.files ∧
      fs'.tell exPtx 5 = .ok 3 ∧ exFs.tell exPtx 5 = .ok 3) ∧
    ((FileKind.regular ["a2", "f"]).readable = true →
      exFs.pread_vectored exPtx 5 1 0 = .ok (readAt [1, 2, 3] 0 1, exFs)) := by
  exact pwrite_preserves_cursor exFs exPtx exPtx exPtx 5 [9, 9] 0 1 0
    ⟨5, 3, false⟩ ⟨.regular ["a2", "f"], [1, 2, 3], false, 1⟩
    (by decide) (by decide) (by decide)

/-- Claim C4: on a fresh instance every reserved descriptor (standard streams
and the two preopened directories, numbers 0 through 4) closes successfully
once and fails with BadDescriptor on a second close, and closing any number
that was never open fails with BadDescriptor. -/
theorem close_twice_bad_descriptor (ptx : PTx) (home : String) (input : List Byte)
    (fd : Nat) :
    (fd < 5 → closeTwice (BCFS.new home input) ptx fd = (none, some .badF)) ∧
    (5 ≤ fd → ((BCFS.new home input).close ptx fd).1 = some .badF) := by
  constructor
  · intro hlt
    interval_cases fd <;>
      simp [closeTwice, BCFS.close, BCFS.new, BCFS.flush, alookup,
        BCFS.removeHandle, aremove, aset]
  · intro hge
    have h0 : ¬((0 : Nat) = fd) := by omega
    have h1 : ¬((1 : Nat) = fd) := by omega
    have h2 : ¬((2 : Nat) = fd) := by omega
    have h3 : ¬((3 : Nat) = fd) := by omega
    have h4 : ¬((4 : Nat) = fd) := by omega
    simp [BCFS.close, BCFS.new, alookup, h0, h1, h2, h3, h4]

theorem close_twice_bad_descriptor_witness :
    (closeTwice (BCFS.new "a2" [1, 2]) exPtx 3 = (none, some .badF)) ∧
    ((BCFS.new "a2" [1, 2]).close exPtx 9).1 = some .badF :=
  ⟨(close_twice_bad_descriptor exPtx "a2" [1, 2] 3).1 (by decide),
   (close_twice_bad_descriptor exPtx "a2" [1, 2] 9).2 (by decide)⟩

/-- Claim C5: resolving a path whose `..` segments would pop past the
applicable sandbox root (the chain root for absolute paths, the base
directory's canonical prefix for relative ones) makes `open` fail with
NotFound, and a path naming a nonexistent regular file (no cached node, no
storage entry, no Create flag) fails with the very same NotFound error. -/
theorem path_escape_not_found (fs : BCFS) (ptx : PTx) (base : Nat) (p : FsPath)
    (h : OpenHandle) (hnd : Node) (pre : List String)
    (create excl trunc append : Bool)
    (hb : alookup fs.files base = some h)
    (hn : alookup fs.nodes h.node = some hnd)
    (hk : hnd.kind = .dir pre)
    (hesc : canonSegs (if p.absolute then [] else pre)
              (if p.absolute then [] else pre) p.segs = none) :
    (fs.openFile ptx base p create excl trunc append = .error .noEnt ∧
     fs.resolve base p = .error .noEnt) ∧
    ∀ (fs2 : BCFS) (ptx2 : PTx) (b2 : Nat) (p2 : FsPath) (rest : List String),
      fs2.resolve b2 p2 = .ok (fs2.home :: rest) → rest ≠ [] →
      classify fs2.home (fs2.home :: rest) = none →
      findNodeByPath fs2.nodes (fs2.home :: rest) = none →
      ptx2.storageGet (storageKey rest) = none →
      fs2.openFile ptx2 b2 p2 false excl trunc append = .error .noEnt := by
  have hsegs : p.segs ≠ [] := by
    intro hnil
    rw [hnil] at hesc
    simp [canonSegs] at hesc
  constructor
  · have hres : fs.resolve base p = .error .noEnt := by
      simp only [BCFS.resolve, hb, hn, hk]
      rw [if_neg (by simp [hsegs])]
      cases habs : p.absolute <;> simp [habs] at hesc ⊢ <;> rw [hesc]
    exact ⟨by simp only [BCFS.openFile, hres], hres⟩
  · intro fs2 ptx2 b2 p2 rest hres hrne hcl hfind hsg
    simp [BCFS.openFile, hres, hcl, hfind, hsg, hrne]

theorem path_escape_not_found_witness :
    ((BCFS.new "a2" [1]).openFile exPtx HOME_DIR_FILENO
        ⟨false, [.dotdot, .dotdot, .dotdot, .name "asdf"]⟩ false false false false =
      .error .noEnt ∧
     (BCFS.new "a2" [1]).resolve HOME_DIR_FILENO
        ⟨false, [.dotdot, .dotdot, .dotdot, .name "asdf"]⟩ = .error .noEnt) ∧
    ∀ (fs2 : BCFS) (ptx2 : PTx) (b2 : Nat) (p2 : FsPath) (rest : List String),
      fs2.resolve b2 p2 = .ok (fs2.home :: rest) → rest ≠ [] →
      classify fs2.home (fs2.home :: rest) = none →
      findNodeByPath fs2.nodes (fs2.home :: rest) = none →
      ptx2.storageGet (storageKey rest) = none →
      fs2.openFile ptx2 b2 p2 false false false false = .error .noEnt :=
  path_escape_not_found (BCFS.new "a2" [1]) exPtx HOME_DIR_FILENO
    ⟨false, [.dotdot, .dotdot, .dotdot, .name "asdf"]⟩
    ⟨4, 0, false⟩ ⟨.dir ["a2"], [], false, 1⟩ ["a2"] false false false false
    (by decide) (by decide) (by decide) (by decide)

/-- Claim C9: a tempfile's writes are all readable back through the handle
within its lifetime, flushing the handle succeeds, and the transaction state
— in particular the persistent account key/value storage — is byte-for-byte
unchanged by the entire interaction. -/
theorem tempfile_scratch_isolated (ptx : PTx) (writes : List (List Byte)) :
    tempfileScenario ptx writes = .ok (writes.flatten, ptx) := by
  obtain ⟨d, hd⟩ := writeAll_shared ptx writes
    ((BCFS.new ptx.callee ptx.input).tempfile.2) 5 5 ⟨.temp, [], false, 1⟩
    (by simp [BCFS.new, BCFS.tempfile, BCFS.addNode, BCFS.addHandle, alookup])
    (by simp [BCFS.new, BCFS.tempfile, BCFS.addNode, BCFS.addHandle, alookup])
    (by decide)
  have hfd : (BCFS.new ptx.callee ptx.input).tempfile.1 = 5 := by
    simp [BCFS.new, BCFS.tempfile, BCFS.addNode, BCFS.addHandle]
  simp only [tempfileScenario, hfd, hd]
  simp [BCFS.seek, BCFS.read_vectored, BCFS.flush, BCFS.new, BCFS.tempfile,
    BCFS.addNode, BCFS.addHandle, alookup, aset, readAt, FileKind.readable]

/-- Claim C3: a write through an append-mode handle lands at the current end
of the shared content regardless of the cursor's pre-write position, and the
cursor afterwards equals the new content length; consequently two sequential
Create+Append opens of the same fresh path, each writing once and closing,
leave stored content equal to the concatenation of the two payloads. -/
theorem append_writes_land_at_end :
    (∀ (fs : BCFS) (ptx : PTx) (fd : Nat) (data : List Byte) (h : OpenHandle) (nd : Node),
        alookup fs.files fd = some h →
        alookup fs.nodes h.node = some nd →
        h.append = true → nd.kind.writable = true →
        fs.write_vectored ptx fd data =
          .ok (data.length,
            { fs with
              nodes := aset fs.nodes h.node { nd with content := nd.content ++ data, dirty := true }
              files := aset fs.files fd { h with cursor := (nd.content ++ data).length } })) ∧
    (∀ (ptx : PTx) (acct : Account) (s : String) (w1 w2 : List Byte),
        alookup ptx.state ptx.callee = some acct →
        alookup acct.storage (storageKey [s]) = none →
        s ≠ "balance" → s ≠ "bytecode" →
        twoAppendScenario ptx s w1 w2 = .ok (some (w1 ++ w2))) := by
  constructor
  · intro fs ptx fd data h nd hf hn ha hw
    simp only [BCFS.write_vectored, hf, hn, hw, if_true, ha, if_true, writeAt_end]
    simp
  · intro ptx acct s w1 w2 hacct hnofile hs1 hs2
    simp [twoAppendScenario, relPath, BCFS.openFile, BCFS.resolve, BCFS.new, classify,
      canonSegs, findNodeByPath, BCFS.addNode, BCFS.addHandle, BCFS.write_vectored,
      BCFS.flush, BCFS.close, BCFS.removeHandle, PTx.storageGet, PTx.storageSet,
      alookup, aset, aremove, writeAt, hacct, hnofile, hs1, hs2,
      alookup_aset_self, FileKind.writable, writeAt_end,
      HOME_DIR_FILENO, CHAIN_DIR_FILENO]

theorem append_writes_land_at_end_witness :
    exFsAppend.write_vectored exPtx 5 [9] =
      .ok (1, { exFsAppend with
                nodes := aset exFsAppend.nodes 5
                  { kind := .regular ["a2", "g"], content := [1, 2] ++ [9], dirty := true, refs := 1 }
                files := aset exFsAppend.files 5 ⟨5, ([1, 2] ++ [9] : List Byte).length, true⟩ }) ∧
    twoAppendScenario exPtx "f" [1] [2, 3] = .ok (some ([1] ++ [2, 3])) := by
  have h := append_writes_land_at_end
  exact ⟨h.1 exFsAppend exPtx 5 [9] ⟨5, 0, true⟩ ⟨.regular ["a2", "g"], [1, 2], false, 1⟩
      (by decide) (by decide) rfl (by decide),
    h.2 exPtx exAcct "f" [1] [2, 3] (by decide) (by decide) (by decide) (by decide)⟩

/-- Claim C6: writing any byte sequence through a handle on a path, closing
it, reopening the same path without Truncate, and reading back the written
length recovers exactly the written bytes, for payloads of any length
(including zero) and regardless of any content the file held before. -/
theorem write_close_reopen_read_round_trip (ptx : PTx) (acct : Account)
    (names : List String) (data : List Byte)
    (hacct : alookup ptx.state ptx.callee = some acct)
    (hne : names ≠ [])
    (hcl : classify ptx.callee (ptx.callee :: names) = none) :
    roundTripScenario ptx names data = .ok data := by
  have hc : canonSegs [ptx.callee] [ptx.callee] (names.map Seg.name) =
      some (ptx.callee :: names) := by
    rw [canonSegs_names]
    simp
  cases hsg : alookup acct.storage (storageKey names) with
  | none =>
    simp [roundTripScenario, relPath, BCFS.openFile, BCFS.resolve, BCFS.new, hcl,
      hc, findNodeByPath, BCFS.addNode, BCFS.addHandle, BCFS.write_vectored,
      BCFS.read_vectored, BCFS.flush, BCFS.close, BCFS.removeHandle, PTx.storageGet,
      PTx.storageSet, alookup, aset, aremove, writeAt, readAt, hacct, hsg, hne,
      alookup_aset_self, FileKind.writable, FileKind.readable, List.take_left,
      HOME_DIR_FILENO, CHAIN_DIR_FILENO]
  | some v =>
    simp [roundTripScenario, relPath, BCFS.openFile, BCFS.resolve, BCFS.new, hcl,
      hc, findNodeByPath, BCFS.addNode, BCFS.addHandle, BCFS.write_vectored,
      BCFS.read_vectored, BCFS.flush, BCFS.close, BCFS.removeHandle, PTx.storageGet,
      PTx.storageSet, alookup, aset, aremove, writeAt, readAt, hacct, hsg, hne,
      alookup_aset_self, FileKind.writable, FileKind.readable, List.take_left,
      HOME_DIR_FILENO, CHAIN_DIR_FILENO]

theorem write_close_reopen_read_round_trip_witness :
    roundTripScenario exPtx ["dir", "somefile"] [1, 2, 3] = .ok [1, 2, 3] :=
  write_close_reopen_read_round_trip exPtx exAcct ["dir", "somefile"] [1, 2, 3]
    (by decide) (by decide) (by decide)

/-- Claim C2 (amended): writing an encoded payload to an append-mode log
handle and flushing emits exactly one event against the current transaction,
whose emitter is the current account, whose data equals the decoded data, and
whose topics equal the decoded topics after each is coerced to exactly 32
bytes (right-padded with zeros or truncated). -/
theorem log_flush_emits_coerced_event (ptx : PTx) (topics : List (List Byte))
    (data : List Byte)
    (hev : ptx.events = [])
    (hcount : topics.length < 2 ^ 32)
    (ht : ∀ t ∈ topics, t.length < 2 ^ 32)
    (hd : data.length < 2 ^ 32) :
    logScenario ptx (encodeLog topics data) =
      .ok [{ emitter := ptx.callee, topics := topics.map coerceTopic, data := data }] := by
  have hdec := decodeLog_encodeLog topics data hcount ht hd
  have hnonempty : encodeLog topics data ≠ [] := by
    simp [encodeLog, leBytes]
  simp [logScenario, BCFS.openFile, BCFS.resolve, BCFS.new, classify, canonSegs,
    findNodeByPath, BCFS.addNode, BCFS.addHandle, BCFS.write_vectored, BCFS.flush,
    PTx.emit, alookup, aset, writeAt, hdec, hnonempty, hev,
    FileKind.writable, CHAIN_DIR_FILENO]

theorem log_flush_emits_coerced_event_witness :
    logScenario exPtx (encodeLog [helloBytes, worldBytes] [33]) =
      .ok [{ emitter := exPtx.callee,
             topics := [helloBytes, worldBytes].map coerceTopic, data := [33] }] :=
  log_flush_emits_coerced_event exPtx [helloBytes, worldBytes] [33]
    (by decide) (by decide) (by decide) (by decide)

/-- Claim C2 as literally stated is false: the emitted event's topics are not
equal to the raw decoded topics, because `emit` coerces each topic to 32
bytes — here the five-byte topics "hello" and "world" come back zero-padded
to 32 bytes in the event. -/
theorem log_flush_topics_not_decoded_raw :
    logScenario exPtx (encodeLog [helloBytes, worldBytes] [33]) ≠
      .ok [{ emitter := exPtx.callee, topics := [helloBytes, worldBytes],
             data := [33] }] := by
  decide

/-- Claim C7: opening "balance" under the home directory snapshots, at open
time, the little-endian fixed-width (16-byte) encoding of the callee
account's balance as already credited with the value transferred in by the
current transaction (`transact` moves the value before the callee runs), and
a read performed later — under an arbitrary, possibly changed transaction
state — still returns exactly those 16 bytes. -/
theorem balance_read_snapshot (st : List (Address × Account)) (caller callee : Address)
    (value : Nat) (acctCaller acctCallee : Account) (input : List Byte)
    (ptxLater : PTx)
    (hc : alookup st caller = some acctCaller)
    (he : alookup st callee = some acctCallee)
    (hne : caller ≠ callee)
    (_hfunds : value ≤ acctCaller.balance)
    (_hfits : acctCallee.balance + value < 2 ^ 128) :
    balanceScenario (mkTransactPtx st caller callee value input) ptxLater =
      .ok (leBytes 16 (acctCallee.balance + value)) ∧
    (leBytes 16 (acctCallee.balance + value)).length = 16 := by
  have h1 : alookup (aset st caller { acctCaller with balance := acctCaller.balance - value }) callee =
      alookup st callee :=
    alookup_aset_ne st caller callee _ hne
  have htake : (leBytes 16 (acctCallee.balance + value)).take 32 =
      leBytes 16 (acctCallee.balance + value) :=
    List.take_of_length_le (by rw [leBytes_length]; omega)
  refine ⟨?_, leBytes_length 16 _⟩
  simp [balanceScenario, mkTransactPtx, updateBal, hc, h1, he, relPath,
    BCFS.openFile, BCFS.resolve, BCFS.new, classify, canonSegs, findNodeByPath,
    BCFS.addNode, BCFS.addHandle, BCFS.read_vectored, PTx.account_meta_at,
    alookup, aset, readAt, alookup_aset_self, htake,
    FileKind.readable, HOME_DIR_FILENO]

theorem balance_read_snapshot_witness :
    balanceScenario (mkTransactPtx exState "a1" "a2" 42 [1, 2]) exPtx =
      .ok (leBytes 16 (exAcct.balance + 42)) ∧
    (leBytes 16 (exAcct.balance + 42)).length = 16 :=
  balance_read_snapshot exState "a1" "a2" 42
    { balance := 1000, code := [9], storage := [] } exAcct [1, 2] exPtx
    (by decide) (by decide) (by decide) (by decide) (by decide)

/-- Claim C1: on a fresh instance, whenever two spellings (each resolved via
its own base directory descriptor) canonicalise to the same regular path
under the home directory, the two handles obtained by opening them share one
mutable content buffer: bytes written through the first handle are
immediately visible to a positional read through the second handle, with no
flush performed anywhere in the interaction. -/
theorem aliased_handles_share_buffer (ptx : PTx) (acct : Account) (b1 b2 : Nat)
    (p1 p2 : FsPath) (rest : List String) (data : List Byte)
    (hacct : alookup ptx.state ptx.callee = some acct)
    (hrest : rest ≠ [])
    (hcl : classify ptx.callee (ptx.callee :: rest) = none)
    (hr1 : (BCFS.new ptx.callee ptx.input).resolve b1 p1 = .ok (ptx.callee :: rest))
    (hr2 : (BCFS.new ptx.callee ptx.input).resolve b2 p2 = .ok (ptx.callee :: rest)) :
    aliasScenario ptx b1 p1 b2 p2 data = .ok data := by
  cases hsg : alookup acct.storage (storageKey rest) with
  | none =>
    have hr1' := hr1
    have hr2' := resolve_extend (BCFS.new ptx.callee ptx.input)
      [(5, ⟨5, 0, false⟩)]
      [(5, ⟨.regular (ptx.callee :: rest), [], true, 1⟩)] 6 6 b2 p2 _ hr2
    simp only [BCFS.new] at hr1'
    simp only [BCFS.new, List.cons_append, List.nil_append] at hr2'
    simp [aliasScenario, BCFS.openFile, BCFS.new, hr1', hr2', hcl,
      hrest, findNodeByPath, BCFS.addNode, BCFS.addHandle, BCFS.write_vectored,
      BCFS.pread_vectored, PTx.storageGet, alookup, aset, writeAt, readAt,
      hacct, hsg, alookup_aset_self, FileKind.writable, FileKind.readable,
      List.take_left]
  | some v =>
    have hr1' := hr1
    have hr2' := resolve_extend (BCFS.new ptx.callee ptx.input)
      [(5, ⟨5, 0, false⟩)]
      [(5, ⟨.regular (ptx.callee :: rest), v, false, 1⟩)] 6 6 b2 p2 _ hr2
    simp only [BCFS.new] at hr1'
    simp only [BCFS.new, List.cons_append, List.nil_append] at hr2'
    simp [aliasScenario, BCFS.openFile, BCFS.new, hr1', hr2', hcl,
      hrest, findNodeByPath, BCFS.addNode, BCFS.addHandle, BCFS.write_vectored,
      BCFS.pread_vectored, PTx.storageGet, alookup, aset, writeAt, readAt,
      hacct, hsg, alookup_aset_self, FileKind.writable, FileKind.readable,
      List.take_left]

theorem aliased_handles_share_buffer_witness :
    aliasScenario exPtx HOME_DIR_FILENO (relPath ["somefile"]) CHAIN_DIR_FILENO
      (relPath ["a2", "somefile"]) [7, 8, 9] = .ok [7, 8, 9] :=
  aliased_handles_share_buffer exPtx exAcct HOME_DIR_FILENO CHAIN_DIR_FILENO
    (relPath ["somefile"]) (relPath ["a2", "somefile"]) ["somefile"] [7, 8, 9]
    (by decide) (by decide) (by decide) (by decide) (by decide)

end Mantle
